import Mathlib

/-!
Shallow embedding of the textrazor-go client library (textrazor.go).

The pure data manipulation (parameter maps, url.Values encoding, MIME
header canonicalisation, the Go `string(int)` conversion) is translated
directly into executable Lean functions.  The effectful collaborators that
the library delegates to the Go standard library — `url.ParseRequestURI`,
`http.NewRequest` method validation, the HTTP round trip, the body read
and `json.Unmarshal` — are passed to the dispatcher as explicit oracle
parameters describing their outcome, so the control flow of `doRequest`
(which check runs, in which order, and what is returned on each path) is
embedded faithfully and can be quantified over all collaborator outcomes.
The dispatcher also records an event trace (transport invocation,
back-reference binding, status check, body parse, ok check) so that
claims about steps never being reached are expressible.
-/

/-! ### String-keyed multi-valued maps (Go `url.Values` and `http.Header`) -/

/-- Association list from keys to value sequences; the shallow embedding of a
Go `map[string][]string`.  A Go map has unique keys and no key order; theorems
that depend on map semantics take a `Nodup` hypothesis on the keys and are
proved invariant under permutation of the entries. -/
abbrev StrMultiMap := List (String × List String)

/-- Look up the value sequence bound to a key (Go map indexing). -/
def assocLookup (k : String) : StrMultiMap → Option (List String)
  | [] => none
  | (k2, vs) :: rest => if k2 = k then some vs else assocLookup k rest

/-- Append one value to the sequence bound to a key, binding the key if absent
(Go `v[key] = append(v[key], value)`). -/
def assocAppend : StrMultiMap → String → String → StrMultiMap
  | [], k, v => [(k, [v])]
  | (k2, vs) :: rest, k, v =>
    if k2 = k then (k2, vs ++ [v]) :: rest else (k2, vs) :: assocAppend rest k v

/-- Replace the sequence bound to a key by a single value, binding the key if
absent (Go `v[key] = []string{value}`). -/
def assocReplace : StrMultiMap → String → String → StrMultiMap
  | [], k, v => [(k, [v])]
  | (k2, vs) :: rest, k, v =>
    if k2 = k then (k2, [v]) :: rest else (k2, vs) :: assocReplace rest k v

/-- Remove a key (Go `delete(v, key)`). -/
def assocErase : StrMultiMap → String → StrMultiMap
  | [], _ => []
  | (k2, vs) :: rest, k => if k2 = k then rest else (k2, vs) :: assocErase rest k

/-- Value sequence bound to a key, empty if absent (observation helper). -/
def assocValues (p : StrMultiMap) (k : String) : List String :=
  (assocLookup k p).getD []

/-! ### Query escaping (Go `url.QueryEscape`) -/

/-- Uppercase hexadecimal digit, as used by Go percent-escaping. -/
def hexDigit (n : Nat) : Char :=
  (['0', '1', '2', '3', '4', '5', '6', '7', '8', '9',
    'A', 'B', 'C', 'D', 'E', 'F']).getD n '0'

/-- UTF-8 bytes of a character (Go strings are byte sequences in UTF-8;
escaping works byte by byte). -/
def utf8Bytes (c : Char) : List Nat :=
  let n := c.toNat
  if n < 128 then [n]
  else if n < 2048 then [192 + n / 64, 128 + n % 64]
  else if n < 65536 then [224 + n / 4096, 128 + (n / 64) % 64, 128 + n % 64]
  else [240 + n / 262144, 128 + (n / 4096) % 64, 128 + (n / 64) % 64, 128 + n % 64]

/-- Character left unescaped by Go query escaping: ASCII alphanumerics and
the unreserved marks. -/
def isUnreservedQueryChar (c : Char) : Bool :=
  c.isAlphanum || c == '-' || c == '_' || c == '.' || c == '~'

/-- Escape one character as Go `url.QueryEscape` does: unreserved characters
pass through, space becomes a plus sign, every other byte becomes percent and
two uppercase hex digits. -/
def escapeQueryChar (c : Char) : String :=
  if isUnreservedQueryChar c then String.singleton c
  else if c == ' ' then "+"
  else String.join ((utf8Bytes c).map fun b =>
    String.mk ['%', hexDigit (b / 16), hexDigit (b % 16)])

/-- Go `url.QueryEscape`. -/
def queryEscape (s : String) : String :=
  String.join (s.data.map escapeQueryChar)

/-! ### Params (textrazor.go lines 32-60) -/

/-- Params defines a generic map for endpoints parameters (`type Params
url.Values`). -/
abbrev Params := StrMultiMap

/-- Add appends a value under a key, as `url.Values.Add`. -/
def Params.Add (p : Params) (key value : String) : Params :=
  assocAppend p key value

/-- Set replaces all values under a key with a single value, as
`url.Values.Set`. -/
def Params.Set (p : Params) (key value : String) : Params :=
  assocReplace p key value

/-- Del removes a key, as `url.Values.Del`. -/
def Params.Del (p : Params) (key : String) : Params :=
  assocErase p key

/-- Get returns the first value under a key or the empty string, as
`url.Values.Get`. -/
def Params.Get (p : Params) (key : String) : String :=
  match assocLookup key p with
  | none => ""
  | some vs => vs.headD ""

/-- Lexicographic comparison of character lists by code point; on UTF-8
strings this coincides with the byte order Go string comparison uses. -/
def charListLe : List Char → List Char → Bool
  | [], _ => true
  | _ :: _, [] => false
  | a :: as, b :: bs =>
    if a = b then charListLe as bs else decide (a.toNat < b.toNat)

/-- Order in which `sort.Strings` sorts the keys of a Go value map. -/
def strLe (a b : String) : Bool :=
  charListLe a.data b.data

/-- Go `url.Values.Encode`: distinct keys in sorted order, values of each key
in stored order, each entry rendered `escapedKey=escapedValue` and the
entries joined by ampersands. -/
def urlValuesEncode (p : Params) : String :=
  String.intercalate "&"
    ((List.insertionSort (fun a b : String => strLe a b = true)
        (p.map Prod.fst)).flatMap fun k =>
      (assocValues p k).map fun v => queryEscape k ++ "=" ++ queryEscape v)

/-- Encode renders the map in form-urlencoded shape and returns a nil error
to comply with the RequestBody interface (textrazor.go lines 48-50); the
`Option String` component embeds the Go `error` result, `none` being nil. -/
def Params.Encode (p : Params) : String × Option String :=
  (urlValuesEncode p, none)

/-! ### Headers (Go `http.Header`) -/

/-- Valid header field-name byte (Go `httpguts.IsTokenRune`). -/
def isTokenChar (c : Char) : Bool :=
  c.isAlphanum || c == '!' || c == '#' || c == '$' || c == '%' || c == '&' ||
  c == Char.ofNat 39 || c == '*' || c == '+' || c == '-' || c == '.' ||
  c == '^' || c == '_' || c == Char.ofNat 96 || c == '|' || c == '~'

/-- Canonicalisation pass over the characters of a header key: uppercase at
the start and after each hyphen, lowercase elsewhere (ASCII only, as in Go).
The boolean argument says whether the next character starts a word. -/
def canonChars : Bool → List Char → List Char
  | _, [] => []
  | up, c :: cs =>
    let c2 := if up then c.toUpper else c.toLower
    c2 :: canonChars (c2 == '-') cs

/-- Go `textproto.CanonicalMIMEHeaderKey`: keys with an invalid byte are
returned unchanged, otherwise canonicalised word by word. -/
def canonicalMIMEHeaderKey (s : String) : String :=
  if s.data.all isTokenChar then String.mk (canonChars true s.data) else s

/-- HTTP headers, same underlying shape as a Go `http.Header` map. -/
abbrev Header := StrMultiMap

/-- Go `http.Header.Add`: appends the value under the canonical form of the
key, never replacing existing values. -/
def Header.Add (h : Header) (key value : String) : Header :=
  assocAppend h (canonicalMIMEHeaderKey key) value

/-- DefaultHeaders returns valid headers with Content-Type set
(textrazor.go lines 305-308). -/
def DefaultHeaders (contentType : String) : Header :=
  [("Content-Type", [contentType])]

/-! ### Constants (textrazor.go lines 16-30) -/

def DefaultEndpoint : String := "http://api.textrazor.com"

def DefaultSecureEndpoint : String := "https://api.textrazor.com"

/-- HTTP header used for authentication. -/
def apiKeyHeader : String := "X-TextRazor-Key"

def contentTypeJSON : String := "application/json"

def contentTypeCSV : String := "application/csv"

def contentTypeURL : String := "application/x-www-form-urlencoded"

/-! ### Client and request dispatcher (textrazor.go lines 317-409) -/

/-- Client defines a TextRazor http client; the transport handle is an
external collaborator and is supplied to each dispatch as oracles. -/
structure Client where
  apiKey : String
  useCompression : Bool
  UseEncryption : Bool
  Endpoint : String
  SecureEndpoint : String
deriving DecidableEq

/-- NewCustomClient returns a TextRazor client with custom parameters. -/
def NewCustomClient (apiKey : String) (useCompression useEncryption : Bool)
    (endpoint secureEndpoint : String) : Client :=
  ⟨apiKey, useCompression, useEncryption, endpoint, secureEndpoint⟩

/-- NewClient returns a TextRazor client with default parameters. -/
def NewClient (apiKey : String) : Client :=
  NewCustomClient apiKey true true DefaultEndpoint DefaultSecureEndpoint

/-- Outcome of `ioutil.ReadAll(resp.Body)` together with the transport
response metadata: the status code, the response headers and either the raw
body or a read failure. -/
structure TransportResponse where
  status : Nat
  headers : Header
  bodyRead : Except String String

/-- Fields of the envelope written by a successful `json.Unmarshal` of the
body (the collaborator abstracted by the decode oracle); the `response`
payload itself carries no data relevant to the dispatcher's control flow. -/
structure Decoded where
  ok : Bool
  error : String
  message : String
deriving DecidableEq

/-- Observable steps of one dispatch, in execution order: the transport
round trip, the binding of the envelope back-reference onto the result
target, the status-code comparison, the `ParseBody` JSON decode, and the
decoded `ok`-flag comparison. -/
inductive Event where
  | transportCall
  | setBackref
  | statusCheck
  | parseBody
  | okCheck
deriving DecidableEq

/-- One constructor per `return nil, fmt.Errorf(...)` site of the client,
carrying the data interpolated into the message. -/
inductive ClientError where
  | validationTextURL
  | validationExtractors
  | uriError (rawurl : String)
  | encodeError (msg : String)
  | newRequestError
  | transportError (msg : String)
  | bodyReadError (msg : String)
  | statusError (code : Nat)
  | parseError (msg : String)
  | okFalseError
deriving DecidableEq

/-- HTTPResponse envelope: raw transport metadata (Status, Headers, Body are
tagged `json:"-"` and never touched by decoding) plus the decoded success
flag and error/message fields.  The float `time` field and the polymorphic
`Response` pointer are omitted; neither carries dispatcher control flow. -/
structure HTTPResponse where
  Status : Nat
  Headers : Header
  Body : String
  Ok : Bool
  Error : String
  Message : String
deriving DecidableEq

/-- Everything observable about one call to `doRequest`: the returned value
(`Except` embeds the Go `(*HTTPResponse, error)` pair, errors returning a
nil envelope), the final state of the result target's envelope
back-reference, the headers of the outgoing request when one was built, and
the event trace. -/
structure DoRequestResult where
  result : Except ClientError HTTPResponse
  backref : Option HTTPResponse
  requestHeaders : Option Header
  events : List Event

/-- Request body argument of `doRequest`: a `RequestBody` interface value is
characterised by the outcome of its only method `Encode() (string, error)`,
and `none` embeds a nil body (textrazor.go lines 359-365 default the body
string to empty in that case). -/
def encodeBody : Option (Except String String) → Except String String
  | none => Except.ok ""
  | some r => r

/-- Base endpoint resolution of doRequest (textrazor.go lines 346-350):
the secure endpoint when encryption is enabled, the plain one otherwise. -/
def Client.endpointURL (c : Client) : String :=
  if c.UseEncryption then c.SecureEndpoint else c.Endpoint

/-- doRequest executes one http request with the client parameters
(textrazor.go lines 342-409).  The standard-library collaborators are
oracles: `uriParses` is the success of `url.ParseRequestURI` on the combined
URL, `newRequestOk` the success of `http.NewRequest`, `transport` the
outcome of `client.Do` with the body read, and `decode` the outcome of
`json.Unmarshal` on a given body.  The step order, the returned error at
each exit and the back-reference binding mirror the source. -/
def Client.doRequest (c : Client) (path method : String)
    (headers : Option Header) (body : Option (Except String String))
    (uriParses : String → Bool) (newRequestOk : Bool)
    (transport : Except String TransportResponse)
    (decode : String → Except String Decoded) : DoRequestResult :=
  if uriParses (c.endpointURL ++ path) = false then
    ⟨.error (.uriError (c.endpointURL ++ path)), none, none, []⟩
  else
    match encodeBody body with
    | .error msg => ⟨.error (.encodeError msg), none, none, []⟩
    | .ok _bodyStr =>
      if newRequestOk = false then
        ⟨.error .newRequestError, none, none, []⟩
      else
        let reqHeaders :=
          Header.Add (match headers with | some h => h | none => []) apiKeyHeader c.apiKey
        match transport with
        | .error msg =>
          ⟨.error (.transportError msg), none, some reqHeaders, [.transportCall]⟩
        | .ok tr =>
          match tr.bodyRead with
          | .error msg =>
            ⟨.error (.bodyReadError msg), none, some reqHeaders, [.transportCall]⟩
          | .ok b =>
            let env0 : HTTPResponse := ⟨tr.status, tr.headers, b, false, "", ""⟩
            if tr.status ≠ 200 then
              ⟨.error (.statusError tr.status), some env0, some reqHeaders,
                [.transportCall, .setBackref, .statusCheck]⟩
            else
              match decode b with
              | .error msg =>
                ⟨.error (.parseError msg), some env0, some reqHeaders,
                  [.transportCall, .setBackref, .statusCheck, .parseBody]⟩
              | .ok d =>
                let env1 : HTTPResponse :=
                  { env0 with Ok := d.ok, Error := d.error, Message := d.message }
                if d.ok = false then
                  ⟨.error .okFalseError, some env1, some reqHeaders,
                    [.transportCall, .setBackref, .statusCheck, .parseBody, .okCheck]⟩
                else
                  ⟨.ok env1, some env1, some reqHeaders,
                    [.transportCall, .setBackref, .statusCheck, .parseBody, .okCheck]⟩

/-! ### Client facade methods used by the claims (textrazor.go lines 411-534) -/

/-- Analyze validates the parameters and dispatches the analysis request
(textrazor.go lines 418-430). -/
def Client.Analyze (c : Client) (params : Params)
    (uriParses : String → Bool) (newRequestOk : Bool)
    (transport : Except String TransportResponse)
    (decode : String → Except String Decoded) : DoRequestResult :=
  if (Params.Get params "text" = "" ∧ Params.Get params "url" = "") ∨
      (Params.Get params "text" ≠ "" ∧ Params.Get params "url" ≠ "") then
    ⟨.error .validationTextURL, none, none, []⟩
  else if Params.Get params "extractors" = "" then
    ⟨.error .validationExtractors, none, none, []⟩
  else
    c.doRequest "/" "POST" (some (DefaultHeaders contentTypeURL))
      (some (.ok (urlValuesEncode params))) uriParses newRequestOk transport decode

/-- AnalyzeText sets the text key on the caller's parameter map and delegates
to Analyze (textrazor.go lines 433-436).  The second component is the
caller's map after the in-place `params.Set` mutation. -/
def Client.AnalyzeText (c : Client) (text : String) (params : Params)
    (uriParses : String → Bool) (newRequestOk : Bool)
    (transport : Except String TransportResponse)
    (decode : String → Except String Decoded) : DoRequestResult × Params :=
  let params2 := Params.Set params "text" text
  (c.Analyze params2 uriParses newRequestOk transport decode, params2)

/-- AnalyzeURL sets the url key on the caller's parameter map and delegates
to Analyze (textrazor.go lines 439-442). -/
def Client.AnalyzeURL (c : Client) (urlStr : String) (params : Params)
    (uriParses : String → Bool) (newRequestOk : Bool)
    (transport : Except String TransportResponse)
    (decode : String → Except String Decoded) : DoRequestResult × Params :=
  let params2 := Params.Set params "url" urlStr
  (c.Analyze params2 uriParses newRequestOk transport decode, params2)

/-- Go conversion `string(i)` for an integer `i`: the UTF-8 string of the
single code point numbered `i`, or the replacement character U+FFFD when `i`
is not a valid code point (negative, a surrogate, or above U+10FFFF). -/
def goStringOfInt (n : Int) : String :=
  if 0 ≤ n ∧ n < 1114112 ∧ (n < 55296 ∨ 57343 < n) then
    String.singleton (Char.ofNat n.toNat)
  else
    String.singleton (Char.ofNat 65533)

/-- Parameter map built by GetDictionaryEntries (textrazor.go line 489):
`Params{"limit": {string(limit)}, "offset": {string(offset)}}`. -/
def getDictionaryEntriesParams (limit offset : Int) : Params :=
  [("limit", [goStringOfInt limit]), ("offset", [goStringOfInt offset])]

/-- Parameter map built by GetClassifierCategories (textrazor.go line 528),
the same literal as in GetDictionaryEntries. -/
def getClassifierCategoriesParams (limit offset : Int) : Params :=
  [("limit", [goStringOfInt limit]), ("offset", [goStringOfInt offset])]

/-- GetDictionaryEntries dispatches the listing request with the limit and
offset parameters as the request body (textrazor.go lines 488-495). -/
def Client.GetDictionaryEntries (c : Client) (ID : String) (limit offset : Int)
    (uriParses : String → Bool) (newRequestOk : Bool)
    (transport : Except String TransportResponse)
    (decode : String → Except String Decoded) : DoRequestResult :=
  c.doRequest ("/entities/" ++ ID ++ "/_all") "GET" none
    (some (.ok (urlValuesEncode (getDictionaryEntriesParams limit offset))))
    uriParses newRequestOk transport decode

/-- GetClassifierCategories dispatches the listing request with the limit and
offset parameters as the request body (textrazor.go lines 527-534). -/
def Client.GetClassifierCategories (c : Client) (ID : String) (limit offset : Int)
    (uriParses : String → Bool) (newRequestOk : Bool)
    (transport : Except String TransportResponse)
    (decode : String → Except String Decoded) : DoRequestResult :=
  c.doRequest ("/categories/" ++ ID ++ "/_all") "GET" none
    (some (.ok (urlValuesEncode (getClassifierCategoriesParams limit offset))))
    uriParses newRequestOk transport decode

/-! ### Laws of the multi-valued map operations -/

/-- Appending under one key leaves every other key untouched and extends that
key's value sequence on the right. -/
theorem assocValues_append (p : StrMultiMap) (k2 k v : String) :
    assocValues (assocAppend p k2 v) k =
      if k2 = k then assocValues p k ++ [v] else assocValues p k := by
  induction p with
  | nil =>
    simp only [assocAppend, assocValues, assocLookup]
    split_ifs <;> simp
  | cons hd tl ih =>
    obtain ⟨k3, vs⟩ := hd
    simp only [assocAppend, assocValues, assocLookup] at *
    split_ifs with h1 h2 h2 <;> simp_all [assocLookup] <;> split_ifs <;> simp_all

/-- Replacing under one key leaves every other key untouched and binds that
key to the single new value. -/
theorem assocLookup_replace (p : StrMultiMap) (k2 k v : String) :
    assocLookup k (assocReplace p k2 v) =
      if k2 = k then some [v] else assocLookup k p := by
  induction p with
  | nil => rfl
  | cons hd tl ih =>
    obtain ⟨k3, vs⟩ := hd
    simp only [assocReplace, assocLookup] at *
    split_ifs with h1 h2 h2 <;> first
      | rfl
      | (simp_all [assocLookup]; try (split_ifs <;> simp_all))

/-- Get reads the head of the value sequence, defaulting to the empty
string. -/
theorem Params.Get_eq_headD (p : Params) (k : String) :
    Params.Get p k = (assocValues p k).headD "" := by
  unfold Params.Get assocValues
  cases assocLookup k p <;> simp

/-- Fold of a sequence of Add calls over a parameter map. -/
def addAll (p : Params) (ops : List (String × String)) : Params :=
  ops.foldl (fun acc kv => Params.Add acc kv.1 kv.2) p

/-- After any sequence of Add calls, the values stored under a key are the
previously stored ones followed by exactly the added values with that key, in
call order. -/
theorem assocValues_addAll (ops : List (String × String)) (p : Params) (k : String) :
    assocValues (addAll p ops) k =
      assocValues p k ++ (ops.filter fun kv => decide (kv.1 = k)).map Prod.snd := by
  induction ops generalizing p with
  | nil => simp [addAll]
  | cons op ops ih =>
    simp only [addAll, List.foldl_cons] at *
    rw [ih]
    rw [Params.Add, assocValues_append]
    by_cases h : op.1 = k <;> simp [h, List.filter_cons]

/-! ### The key order is a linear order, and map semantics of the encoding -/

/-- Characters with equal code points are equal. -/
theorem char_toNat_inj {a b : Char} (h : a.toNat = b.toNat) : a = b := by
  cases a; cases b
  simp only [Char.toNat] at h
  congr 1
  exact UInt32.ext h

/-- Totality of the lexicographic comparison. -/
theorem charListLe_total : ∀ as bs, charListLe as bs = true ∨ charListLe bs as = true := by
  intro as
  induction as with
  | nil => intro bs; left; rfl
  | cons a as ih =>
    intro bs
    cases bs with
    | nil => right; rfl
    | cons b bs =>
      simp only [charListLe]
      by_cases hab : a = b
      · subst hab
        simpa using ih bs
      · have hn : a.toNat ≠ b.toNat := fun h => hab (char_toNat_inj h)
        simp only [if_neg hab, if_neg (Ne.symm hab), decide_eq_true_eq]
        omega

/-- Transitivity of the lexicographic comparison. -/
theorem charListLe_trans :
    ∀ as bs cs, charListLe as bs = true → charListLe bs cs = true →
      charListLe as cs = true := by
  intro as
  induction as with
  | nil => intro bs cs _ _; rfl
  | cons a as ih =>
    intro bs cs h1 h2
    cases bs with
    | nil => simp [charListLe] at h1
    | cons b bs =>
      cases cs with
      | nil => simp [charListLe] at h2
      | cons c cs =>
        simp only [charListLe] at h1 h2 ⊢
        by_cases hab : a = b <;> by_cases hbc : b = c
        · subst hab; subst hbc
          simp only [if_pos rfl] at h1 h2 ⊢
          exact ih bs cs h1 h2
        · subst hab
          simp only [if_pos rfl] at h1
          simp only [if_neg hbc] at h2 ⊢
          exact h2
        · subst hbc
          simp only [if_neg hab] at h1 ⊢
          exact h1
        · simp only [if_neg hab] at h1
          simp only [if_neg hbc] at h2
          have hac : a ≠ c := by
            intro h
            subst h
            simp only [decide_eq_true_eq] at h1 h2
            omega
          simp only [if_neg hac, decide_eq_true_eq] at *
          omega

/-- Antisymmetry of the lexicographic comparison. -/
theorem charListLe_antisymm :
    ∀ as bs, charListLe as bs = true → charListLe bs as = true → as = bs := by
  intro as
  induction as with
  | nil =>
    intro bs _ h2
    cases bs with
    | nil => rfl
    | cons b bs => simp [charListLe] at h2
  | cons a as ih =>
    intro bs h1 h2
    cases bs with
    | nil => simp [charListLe] at h1
    | cons b bs =>
      simp only [charListLe] at h1 h2
      by_cases hab : a = b
      · subst hab
        simp only [if_pos rfl] at h1 h2
        rw [ih bs h1 h2]
      · simp only [if_neg hab, if_neg (Ne.symm hab), decide_eq_true_eq] at h1 h2
        omega

instance : IsTotal String fun a b => strLe a b = true :=
  ⟨fun a b => charListLe_total a.data b.data⟩

instance : IsTrans String fun a b => strLe a b = true :=
  ⟨fun a b c => charListLe_trans a.data b.data c.data⟩

instance : IsAntisymm String fun a b => strLe a b = true :=
  ⟨fun a b h1 h2 => by
    cases a; cases b
    exact congrArg String.mk (charListLe_antisymm _ _ h1 h2)⟩

/-- With unique keys, looking a key up is invariant under permutation of the
entries; this is what makes the association list a faithful model of a Go
map, whose iteration order is arbitrary. -/
theorem assocLookup_perm {p q : StrMultiMap} (h : p.Perm q) :
    (p.map Prod.fst).Nodup → ∀ k, assocLookup k p = assocLookup k q := by
  induction h with
  | nil => intro _ _; rfl
  | cons x h ih =>
    intro hn k
    obtain ⟨k2, vs⟩ := x
    simp only [List.map_cons, List.nodup_cons] at hn
    simp only [assocLookup]
    split_ifs with hk
    · rfl
    · exact ih hn.2 k
  | swap x y l =>
    intro hn k
    obtain ⟨k1, v1⟩ := x
    obtain ⟨k2, v2⟩ := y
    simp only [List.map_cons, List.nodup_cons, List.mem_cons] at hn
    have hne : k2 ≠ k1 := fun h12 => hn.1 (Or.inl h12)
    simp only [assocLookup]
    split_ifs with ha hb hb <;> simp_all
  | trans h1 h2 ih1 ih2 =>
    intro hn k
    exact (ih1 hn k).trans (ih2 ((h1.map Prod.fst).nodup hn) k)

/-- Encoding is a function of the key-to-values mapping alone: permuting the
entries of a unique-keyed map does not change the encoded string, because the
keys are sorted before rendering.  This is the determinism that makes the
encoding well defined on Go maps despite their arbitrary iteration order. -/
theorem urlValuesEncode_perm {p q : Params} (hn : (p.map Prod.fst).Nodup)
    (h : p.Perm q) : urlValuesEncode p = urlValuesEncode q := by
  unfold urlValuesEncode
  have hperm :
      (List.insertionSort (fun a b : String => strLe a b = true) (p.map Prod.fst)).Perm
        (List.insertionSort (fun a b : String => strLe a b = true) (q.map Prod.fst)) :=
    (List.perm_insertionSort _ _).trans
      ((h.map Prod.fst).trans (List.perm_insertionSort _ _).symm)
  have hs1 :
      List.Sorted (fun a b : String => strLe a b = true)
        (List.insertionSort (fun a b : String => strLe a b = true) (p.map Prod.fst)) :=
    List.sorted_insertionSort _ _
  have hs2 :
      List.Sorted (fun a b : String => strLe a b = true)
        (List.insertionSort (fun a b : String => strLe a b = true) (q.map Prod.fst)) :=
    List.sorted_insertionSort _ _
  have hkeys :
      List.insertionSort (fun a b : String => strLe a b = true) (p.map Prod.fst) =
        List.insertionSort (fun a b : String => strLe a b = true) (q.map Prod.fst) :=
    List.eq_of_perm_of_sorted hperm hs1 hs2
  have hvals :
      (fun k => (assocValues p k).map fun v => queryEscape k ++ "=" ++ queryEscape v) =
        fun k => (assocValues q k).map fun v => queryEscape k ++ "=" ++ queryEscape v := by
    funext k
    unfold assocValues
    rw [assocLookup_perm h hn k]
  rw [hkeys, hvals]

/-! ### Further laws used by the claims -/

/-- Set then Get under the same key reads back the written value. -/
theorem Params.Get_Set_self (p : Params) (k v : String) :
    Params.Get (Params.Set p k v) k = v := by
  unfold Params.Get Params.Set
  rw [assocLookup_replace, if_pos rfl]
  rfl

/-- Set leaves the value Get reads under any other key unchanged. -/
theorem Params.Get_Set_other (p : Params) (k2 k v : String) (h : k2 ≠ k) :
    Params.Get (Params.Set p k2 v) k = Params.Get p k := by
  unfold Params.Get Params.Set
  rw [assocLookup_replace, if_neg h]

/-! ### The claims -/

/-- Claim C1: the dispatcher returns a populated envelope only when the
transport status code is 200 and the decoded success flag is true; and
whenever the status is 200 and the body decodes with the flag false, the
dispatcher returns the flag error and a nil envelope (the error side of the
sum carries no envelope). -/
theorem c1_ok_iff_status_and_flag (c : Client) (path method : String)
    (headers : Option Header) (body : Option (Except String String))
    (uriParses : String → Bool) (newRequestOk : Bool)
    (transport : Except String TransportResponse)
    (decode : String → Except String Decoded) :
    (∀ env, (c.doRequest path method headers body uriParses newRequestOk
        transport decode).result = .ok env →
      ∃ tr b d, transport = .ok tr ∧ tr.bodyRead = .ok b ∧ tr.status = 200 ∧
        decode b = .ok d ∧ d.ok = true) ∧
    (∀ bs tr b d, uriParses (c.endpointURL ++ path) = true →
        encodeBody body = .ok bs → newRequestOk = true →
        transport = .ok tr → tr.bodyRead = .ok b → tr.status = 200 →
        decode b = .ok d → d.ok = false →
      (c.doRequest path method headers body uriParses newRequestOk
        transport decode).result = .error .okFalseError) := by
  constructor
  · intro env henv
    by_cases huri : uriParses (c.endpointURL ++ path) = false
    · simp [Client.doRequest, huri] at henv
    · cases hbody : encodeBody body with
      | error msg => simp [Client.doRequest, huri, hbody] at henv
      | ok bs =>
        by_cases hnr : newRequestOk = false
        · simp [Client.doRequest, huri, hbody, hnr] at henv
        · cases htr : transport with
          | error msg => simp [Client.doRequest, huri, hbody, hnr, htr] at henv
          | ok tr =>
            cases hread : tr.bodyRead with
            | error msg =>
              simp [Client.doRequest, huri, hbody, hnr, htr, hread] at henv
            | ok b =>
              by_cases hst : tr.status = 200
              · cases hdec : decode b with
                | error msg =>
                  simp [Client.doRequest, huri, hbody, hnr, htr, hread, hst,
                    hdec] at henv
                | ok d =>
                  by_cases hok : d.ok = false
                  · simp [Client.doRequest, huri, hbody, hnr, htr, hread, hst,
                      hdec, hok] at henv
                  · exact ⟨tr, b, d, rfl, hread, hst, hdec, by simpa using hok⟩
              · simp [Client.doRequest, huri, hbody, hnr, htr, hread, hst] at henv
  · intro bs tr b d huri hbody hnr htr hread hst hdec hok
    simp [Client.doRequest, huri, hbody, hnr, htr, hread, hst, hdec, hok]

/-- Witness for C1: a concrete dispatch with status 200 and a body decoding
to a false success flag returns the flag error. -/
theorem c1_witness :
    (Client.doRequest (NewClient "KEY") "/" "POST" none none (fun _ => true)
        true (.ok ⟨200, [], .ok "body"⟩)
        (fun _ => .ok ⟨false, "", ""⟩)).result = .error .okFalseError :=
  (c1_ok_iff_status_and_flag (NewClient "KEY") "/" "POST" none none
      (fun _ => true) true (.ok ⟨200, [], .ok "body"⟩)
      (fun _ => .ok ⟨false, "", ""⟩)).2
    "" ⟨200, [], .ok "body"⟩ "body" ⟨false, "", ""⟩ rfl rfl rfl rfl rfl rfl rfl
    rfl

/-- Claim C2: whenever the transport call and the body read succeed, the
result target's envelope back-reference is bound to an envelope carrying the
transport status, headers and raw body, and the binding event is the second
event of the trace, directly after the transport call and therefore before
the status check, the body parse and the ok-flag check, whichever of those
later fails. -/
theorem c2_backref_attached_first (c : Client) (path method : String)
    (headers : Option Header) (body : Option (Except String String))
    (uriParses : String → Bool) (newRequestOk : Bool)
    (transport : Except String TransportResponse)
    (decode : String → Except String Decoded)
    (bs : String) (tr : TransportResponse) (b : String)
    (huri : uriParses (c.endpointURL ++ path) = true)
    (hbody : encodeBody body = .ok bs) (hnr : newRequestOk = true)
    (htr : transport = .ok tr) (hread : tr.bodyRead = .ok b) :
    ∃ env,
      (c.doRequest path method headers body uriParses newRequestOk
          transport decode).backref = some env ∧
      env.Status = tr.status ∧ env.Headers = tr.headers ∧ env.Body = b ∧
      (c.doRequest path method headers body uriParses newRequestOk
          transport decode).events.take 2 = [.transportCall, .setBackref] := by
  by_cases hst : tr.status = 200
  · cases hdec : decode b with
    | error msg =>
      refine ⟨⟨tr.status, tr.headers, b, false, "", ""⟩, ?_⟩
      simp [Client.doRequest, huri, hbody, hnr, htr, hread, hst, hdec]
    | ok d =>
      by_cases hok : d.ok = false
      · refine ⟨⟨tr.status, tr.headers, b, d.ok, d.error, d.message⟩, ?_⟩
        simp [Client.doRequest, huri, hbody, hnr, htr, hread, hst, hdec, hok]
      · refine ⟨⟨tr.status, tr.headers, b, d.ok, d.error, d.message⟩, ?_⟩
        simp [Client.doRequest, huri, hbody, hnr, htr, hread, hst, hdec, hok]
  · refine ⟨⟨tr.status, tr.headers, b, false, "", ""⟩, ?_⟩
    simp [Client.doRequest, huri, hbody, hnr, htr, hread, hst]

/-- Witness for C2: a concrete dispatch whose status check fails (503) still
binds the back-reference to an envelope holding status, headers and body. -/
theorem c2_witness :
    ∃ env,
      (Client.doRequest (NewClient "KEY") "/" "POST" none none (fun _ => true)
          true (.ok ⟨503, [("Retry-After", ["60"])], .ok "busy"⟩)
          (fun _ => .ok ⟨true, "", ""⟩)).backref = some env ∧
      env.Status = 503 ∧ env.Headers = [("Retry-After", ["60"])] ∧
      env.Body = "busy" ∧
      (Client.doRequest (NewClient "KEY") "/" "POST" none none (fun _ => true)
          true (.ok ⟨503, [("Retry-After", ["60"])], .ok "busy"⟩)
          (fun _ => .ok ⟨true, "", ""⟩)).events.take 2 =
        [.transportCall, .setBackref] :=
  c2_backref_attached_first (NewClient "KEY") "/" "POST" none none
    (fun _ => true) true (.ok ⟨503, [("Retry-After", ["60"])], .ok "busy"⟩)
    (fun _ => .ok ⟨true, "", ""⟩) "" ⟨503, [("Retry-After", ["60"])], .ok "busy"⟩
    "busy" rfl rfl rfl rfl rfl

/-- Claim C3: a response with a status code other than 200 makes the
dispatcher return the status error carrying that code, and the body parse is
never reached. -/
theorem c3_bad_status_no_parse (c : Client) (path method : String)
    (headers : Option Header) (body : Option (Except String String))
    (uriParses : String → Bool) (newRequestOk : Bool)
    (transport : Except String TransportResponse)
    (decode : String → Except String Decoded)
    (bs : String) (tr : TransportResponse) (b : String)
    (huri : uriParses (c.endpointURL ++ path) = true)
    (hbody : encodeBody body = .ok bs) (hnr : newRequestOk = true)
    (htr : transport = .ok tr) (hread : tr.bodyRead = .ok b)
    (hst : tr.status ≠ 200) :
    (c.doRequest path method headers body uriParses newRequestOk
        transport decode).result = .error (.statusError tr.status) ∧
    .parseBody ∉ (c.doRequest path method headers body uriParses newRequestOk
        transport decode).events := by
  constructor
  · simp [Client.doRequest, huri, hbody, hnr, htr, hread, hst]
  · simp [Client.doRequest, huri, hbody, hnr, htr, hread, hst]

/-- Witness for C3: a concrete dispatch answered with status 503 returns the
status error for 503 without parsing the body. -/
theorem c3_witness :
    (Client.doRequest (NewClient "KEY") "/" "POST" none none (fun _ => true)
        true (.ok ⟨503, [], .ok "busy"⟩)
        (fun _ => .ok ⟨true, "", ""⟩)).result = .error (.statusError 503) ∧
    .parseBody ∉ (Client.doRequest (NewClient "KEY") "/" "POST" none none
        (fun _ => true) true (.ok ⟨503, [], .ok "busy"⟩)
        (fun _ => .ok ⟨true, "", ""⟩)).events :=
  c3_bad_status_no_parse (NewClient "KEY") "/" "POST" none none
    (fun _ => true) true (.ok ⟨503, [], .ok "busy"⟩)
    (fun _ => .ok ⟨true, "", ""⟩) "" ⟨503, [], .ok "busy"⟩ "busy"
    rfl rfl rfl rfl rfl (by decide)

/-- Claim C4: a parameter map whose text and url keys are both empty or both
non-empty, or whose extractors key is empty, makes Analyze return one of the
two validation errors with an empty event trace, so the transport is never
invoked. -/
theorem c4_analyze_validation_fails_fast (c : Client) (params : Params)
    (uriParses : String → Bool) (newRequestOk : Bool)
    (transport : Except String TransportResponse)
    (decode : String → Except String Decoded)
    (h : (Params.Get params "text" = "" ∧ Params.Get params "url" = "") ∨
         (Params.Get params "text" ≠ "" ∧ Params.Get params "url" ≠ "") ∨
         Params.Get params "extractors" = "") :
    ((c.Analyze params uriParses newRequestOk transport decode).result =
        .error .validationTextURL ∨
     (c.Analyze params uriParses newRequestOk transport decode).result =
        .error .validationExtractors) ∧
    .transportCall ∉
      (c.Analyze params uriParses newRequestOk transport decode).events := by
  unfold Client.Analyze
  by_cases h1 : (Params.Get params "text" = "" ∧ Params.Get params "url" = "") ∨
      (Params.Get params "text" ≠ "" ∧ Params.Get params "url" ≠ "")
  · rw [if_pos h1]
    exact ⟨Or.inl rfl, by simp⟩
  · rw [if_neg h1]
    have h2 : Params.Get params "extractors" = "" := by tauto
    rw [if_pos h2]
    exact ⟨Or.inr rfl, by simp⟩

/-- Witness for C4: Analyze on an empty parameter map fails validation with
no transport call. -/
theorem c4_witness :
    ((Client.Analyze (NewClient "KEY") [] (fun _ => true) true
        (.ok ⟨200, [], .ok "body"⟩) (fun _ => .ok ⟨true, "", ""⟩)).result =
        .error .validationTextURL ∨
     (Client.Analyze (NewClient "KEY") [] (fun _ => true) true
        (.ok ⟨200, [], .ok "body"⟩) (fun _ => .ok ⟨true, "", ""⟩)).result =
        .error .validationExtractors) ∧
    .transportCall ∉ (Client.Analyze (NewClient "KEY") [] (fun _ => true) true
        (.ok ⟨200, [], .ok "body"⟩) (fun _ => .ok ⟨true, "", ""⟩)).events :=
  c4_analyze_validation_fails_fast (NewClient "KEY") [] (fun _ => true) true
    (.ok ⟨200, [], .ok "body"⟩) (fun _ => .ok ⟨true, "", ""⟩)
    (Or.inl ⟨rfl, rfl⟩)

/-- Counterexample to C5 as stated: when the caller passes no headers, no
default Content-Type headers are applied inside doRequest — the outgoing
request carries only the API-key header, whereas default headers for any
content type would carry a Content-Type entry (shown here for the
form-urlencoded content type). -/
theorem c5_counterexample :
    (Client.doRequest (NewClient "KEY") "/account/" "GET" none none
        (fun _ => true) true (.ok ⟨200, [], .ok "body"⟩)
        (fun _ => .ok ⟨true, "", ""⟩)).requestHeaders =
      some [("X-Textrazor-Key", ["KEY"])] ∧
    assocLookup "Content-Type" [("X-Textrazor-Key", ["KEY"])] = none ∧
    assocLookup "Content-Type" (DefaultHeaders contentTypeURL) =
      some [contentTypeURL] :=
  ⟨rfl, rfl, rfl⟩

/-- Claim C5, amended: caller-supplied headers are used as the request
headers and otherwise the request starts from the empty header map built by
request construction (no defaults are applied inside the dispatcher); the
API-key header value is appended last under its canonical key, after any
caller-supplied values, so the client's API key is always present in the
outgoing request, while other header keys are left untouched. -/
theorem c5_amended_header_composition (c : Client) (path method : String)
    (headers : Option Header) (body : Option (Except String String))
    (uriParses : String → Bool) (newRequestOk : Bool)
    (transport : Except String TransportResponse)
    (decode : String → Except String Decoded) (bs : String)
    (huri : uriParses (c.endpointURL ++ path) = true)
    (hbody : encodeBody body = .ok bs) (hnr : newRequestOk = true) :
    (c.doRequest path method headers body uriParses newRequestOk
        transport decode).requestHeaders =
      some (Header.Add (headers.getD []) apiKeyHeader c.apiKey) ∧
    assocValues (Header.Add (headers.getD []) apiKeyHeader c.apiKey)
        (canonicalMIMEHeaderKey apiKeyHeader) =
      assocValues (headers.getD []) (canonicalMIMEHeaderKey apiKeyHeader) ++
        [c.apiKey] ∧
    ∀ k, k ≠ canonicalMIMEHeaderKey apiKeyHeader →
      assocValues (Header.Add (headers.getD []) apiKeyHeader c.apiKey) k =
        assocValues (headers.getD []) k := by
  refine ⟨?_, ?_, ?_⟩
  · have hmatch : (match headers with | some h => h | none => []) =
        headers.getD [] := by
      cases headers <;> rfl
    cases htr : transport with
    | error msg =>
      simp [Client.doRequest, huri, hbody, hnr, htr, hmatch]
    | ok tr =>
      cases hread : tr.bodyRead with
      | error msg =>
        simp [Client.doRequest, huri, hbody, hnr, htr, hread, hmatch]
      | ok b =>
        by_cases hst : tr.status = 200
        · cases hdec : decode b with
          | error msg =>
            simp [Client.doRequest, huri, hbody, hnr, htr, hread, hst, hdec,
              hmatch]
          | ok d =>
            by_cases hok : d.ok = false <;>
              simp [Client.doRequest, huri, hbody, hnr, htr, hread, hst, hdec,
                hok, hmatch]
        · simp [Client.doRequest, huri, hbody, hnr, htr, hread, hst, hmatch]
  · rw [Header.Add, assocValues_append, if_pos rfl]
  · intro k hk
    rw [Header.Add, assocValues_append, if_neg (fun h2 => hk h2.symm)]

/-- Witness for the amended C5: a dispatch with caller headers containing a
spoofed API-key value keeps that value but appends the client's key after
it, and leaves the Content-Type entry untouched. -/
theorem c5_witness :
    (Client.doRequest (NewClient "KEY") "/" "POST"
        (some [("Content-Type", ["application/json"]),
               ("X-Textrazor-Key", ["evil"])])
        none (fun _ => true) true (.ok ⟨200, [], .ok "body"⟩)
        (fun _ => .ok ⟨true, "", ""⟩)).requestHeaders =
      some [("Content-Type", ["application/json"]),
            ("X-Textrazor-Key", ["evil", "KEY"])] ∧
    assocValues [("Content-Type", ["application/json"]),
        ("X-Textrazor-Key", ["evil", "KEY"])] "X-Textrazor-Key" =
      ["evil", "KEY"] ∧
    assocValues [("Content-Type", ["application/json"]),
        ("X-Textrazor-Key", ["evil", "KEY"])] "Content-Type" =
      ["application/json"] := by
  obtain ⟨h1, h2, h3⟩ := c5_amended_header_composition (NewClient "KEY") "/"
    "POST"
    (some [("Content-Type", ["application/json"]),
           ("X-Textrazor-Key", ["evil"])])
    none (fun _ => true) true (.ok ⟨200, [], .ok "body"⟩)
    (fun _ => .ok ⟨true, "", ""⟩) "" rfl rfl rfl
  exact ⟨h1, h2, h3 "Content-Type" (by decide)⟩

/-- Claim C6: a non-nil request body whose encoding fails makes the
dispatcher return the encoding error with an empty event trace, so the
transport is never invoked; the error is returned as soon as the URL has
been parsed. -/
theorem c6_encode_error_aborts (c : Client) (path method : String)
    (headers : Option Header)
    (uriParses : String → Bool) (newRequestOk : Bool)
    (transport : Except String TransportResponse)
    (decode : String → Except String Decoded) (msg : String) :
    (c.doRequest path method headers (some (.error msg)) uriParses newRequestOk
        transport decode).events = [] ∧
    (uriParses (c.endpointURL ++ path) = true →
      (c.doRequest path method headers (some (.error msg)) uriParses
          newRequestOk transport decode).result = .error (.encodeError msg)) := by
  constructor
  · by_cases huri : uriParses (c.endpointURL ++ path) = false
    · simp [Client.doRequest, huri]
    · simp [Client.doRequest, huri, encodeBody]
  · intro huri
    simp [Client.doRequest, huri, encodeBody]

/-- Witness for C6: a concrete failing body aborts the dispatch with the
encoding error and no events at all. -/
theorem c6_witness :
    (Client.doRequest (NewClient "KEY") "/" "POST" none
        (some (.error "bad body")) (fun _ => true) true
        (.ok ⟨200, [], .ok "body"⟩)
        (fun _ => .ok ⟨true, "", ""⟩)).events = [] ∧
    (Client.doRequest (NewClient "KEY") "/" "POST" none
        (some (.error "bad body")) (fun _ => true) true
        (.ok ⟨200, [], .ok "body"⟩)
        (fun _ => .ok ⟨true, "", ""⟩)).result =
      .error (.encodeError "bad body") := by
  obtain ⟨h1, h2⟩ := c6_encode_error_aborts (NewClient "KEY") "/" "POST" none
    (fun _ => true) true (.ok ⟨200, [], .ok "body"⟩)
    (fun _ => .ok ⟨true, "", ""⟩) "bad body"
  exact ⟨h1, h2 rfl⟩

/-- Claim C7: after any sequence of Add calls on a fresh parameter map, the
values stored under a key are exactly the added values with that key in call
order, Get returns the first of them (the empty string when there is none),
and the encoding of the extractors example map is the expected
form-urlencoded string with a nil error. -/
theorem c7_add_get_encode (ops : List (String × String)) (k : String) :
    assocValues (addAll [] ops) k =
      (ops.filter fun kv => decide (kv.1 = k)).map Prod.snd ∧
    Params.Get (addAll [] ops) k =
      ((ops.filter fun kv => decide (kv.1 = k)).map Prod.snd).headD "" ∧
    Params.Encode [("extractors", ["entities", "entailments"])] =
      ("extractors=entities&extractors=entailments", none) := by
  have hv := assocValues_addAll ops [] k
  rw [show assocValues [] k = [] from rfl, List.nil_append] at hv
  refine ⟨hv, ?_, rfl⟩
  rw [Params.Get_eq_headD, hv]

/-- Counterexample to C8 as stated: the integer 1114112 is just above the
valid code-point range, so Go sends the replacement character U+FFFD for it,
not a code point numbered 1114112. -/
theorem c8_counterexample :
    (Params.Get (getDictionaryEntriesParams 1114112 0) "limit").data.map
        Char.toNat = [65533] ∧
    (65533 : Nat) ≠ 1114112 := by
  exact ⟨rfl, by decide⟩

/-- Claim C8, amended: GetDictionaryEntries and GetClassifierCategories
build the limit and offset parameters with the Go conversion string(int), so
for every limit and offset that is a valid Unicode code point the parameter
value is the single character with that code point — for limit 20 the
control character U+0014 — and never the decimal digit string of the
integer. -/
theorem c8_amended_go_string_conversion (limit offset : Int)
    (hl : 0 ≤ limit ∧ limit < 1114112 ∧ (limit < 55296 ∨ 57343 < limit))
    (ho : 0 ≤ offset ∧ offset < 1114112 ∧ (offset < 55296 ∨ 57343 < offset)) :
    Params.Get (getDictionaryEntriesParams limit offset) "limit" =
      String.singleton (Char.ofNat limit.toNat) ∧
    Params.Get (getDictionaryEntriesParams limit offset) "offset" =
      String.singleton (Char.ofNat offset.toNat) ∧
    Params.Get (getClassifierCategoriesParams limit offset) "limit" =
      String.singleton (Char.ofNat limit.toNat) ∧
    Params.Get (getClassifierCategoriesParams limit offset) "offset" =
      String.singleton (Char.ofNat offset.toNat) ∧
    goStringOfInt 20 = "\x14" ∧ ("\x14" : String) ≠ "20" := by
  have h1 : goStringOfInt limit = String.singleton (Char.ofNat limit.toNat) := by
    unfold goStringOfInt
    rw [if_pos hl]
  have h2 : goStringOfInt offset = String.singleton (Char.ofNat offset.toNat) := by
    unfold goStringOfInt
    rw [if_pos ho]
  refine ⟨?_, ?_, ?_, ?_, by decide, by decide⟩
  · rw [show Params.Get (getDictionaryEntriesParams limit offset) "limit" =
        goStringOfInt limit from rfl, h1]
  · rw [show Params.Get (getDictionaryEntriesParams limit offset) "offset" =
        goStringOfInt offset from rfl, h2]
  · rw [show Params.Get (getClassifierCategoriesParams limit offset) "limit" =
        goStringOfInt limit from rfl, h1]
  · rw [show Params.Get (getClassifierCategoriesParams limit offset) "offset" =
        goStringOfInt offset from rfl, h2]

/-- Witness for the amended C8: limit 20 and offset 7 are sent as the single
characters U+0014 and U+0007. -/
theorem c8_witness :
    Params.Get (getDictionaryEntriesParams 20 7) "limit" =
      String.singleton (Char.ofNat 20) ∧
    Params.Get (getDictionaryEntriesParams 20 7) "offset" =
      String.singleton (Char.ofNat 7) ∧
    Params.Get (getClassifierCategoriesParams 20 7) "limit" =
      String.singleton (Char.ofNat 20) ∧
    Params.Get (getClassifierCategoriesParams 20 7) "offset" =
      String.singleton (Char.ofNat 7) ∧
    goStringOfInt 20 = "\x14" ∧ ("\x14" : String) ≠ "20" :=
  c8_amended_go_string_conversion 20 7 (by decide) (by decide)

/-- Claim C9: the encoding is a deterministic function of the
key-to-value-sequence mapping — permuting the entries of a unique-keyed
parameter map does not change the result of Encode, because distinct keys
are listed in sorted order and the values of each key keep their stored
order. -/
theorem c9_encode_deterministic (p q : Params)
    (hn : (p.map Prod.fst).Nodup) (h : p.Perm q) :
    Params.Encode p = Params.Encode q := by
  unfold Params.Encode
  rw [urlValuesEncode_perm hn h]

/-- Witness for C9: the two insertion orders of keys a and b encode to the
same string. -/
theorem c9_witness :
    Params.Encode [("b", ["2"]), ("a", ["1"])] =
      Params.Encode [("a", ["1"]), ("b", ["2"])] :=
  c9_encode_deterministic [("b", ["2"]), ("a", ["1"])]
    [("a", ["1"]), ("b", ["2"])] (by decide)
    (List.Perm.swap ("a", ["1"]) ("b", ["2"]) [])

/-- Counterexample to C10 as stated: with the url key set and extractors
present, AnalyzeText with the empty text string sets the text key to the
empty string, so the text-versus-url validation still passes and the
dispatch does call the transport and can return a populated envelope — not
a validation error. -/
theorem c10_counterexample :
    Params.Get [("url", ["http://example.com"]), ("extractors", ["entities"])]
        "url" ≠ "" ∧
    (Client.AnalyzeText (NewClient "KEY") ""
        [("url", ["http://example.com"]), ("extractors", ["entities"])]
        (fun _ => true) true (.ok ⟨200, [], .ok "body"⟩)
        (fun _ => .ok ⟨true, "", ""⟩)).1.result =
      .ok ⟨200, [], "body", true, "", ""⟩ ∧
    .transportCall ∈ (Client.AnalyzeText (NewClient "KEY") ""
        [("url", ["http://example.com"]), ("extractors", ["entities"])]
        (fun _ => true) true (.ok ⟨200, [], .ok "body"⟩)
        (fun _ => .ok ⟨true, "", ""⟩)).1.events := by
  exact ⟨by decide, rfl, by decide⟩

/-- Claim C10, amended: for a non-empty text string, AnalyzeText on a map
whose url key is non-empty writes the text key into the caller's map and
returns the text-versus-url validation error with no events, hence no
network call; symmetrically, AnalyzeURL with a non-empty url string on a map
whose text key is non-empty writes the url key and fails the same way. -/
theorem c10_amended_analyze_wrappers (c : Client) (text urlStr : String)
    (p q : Params)
    (uriParses : String → Bool) (newRequestOk : Bool)
    (transport : Except String TransportResponse)
    (decode : String → Except String Decoded)
    (hurl : Params.Get p "url" ≠ "") (htext : text ≠ "")
    (hqtext : Params.Get q "text" ≠ "") (hurlStr : urlStr ≠ "") :
    (c.AnalyzeText text p uriParses newRequestOk transport decode).2 =
        Params.Set p "text" text ∧
    Params.Get (c.AnalyzeText text p uriParses newRequestOk transport
        decode).2 "text" = text ∧
    (c.AnalyzeText text p uriParses newRequestOk transport decode).1.result =
        .error .validationTextURL ∧
    (c.AnalyzeText text p uriParses newRequestOk transport decode).1.events =
        [] ∧
    (c.AnalyzeURL urlStr q uriParses newRequestOk transport decode).2 =
        Params.Set q "url" urlStr ∧
    Params.Get (c.AnalyzeURL urlStr q uriParses newRequestOk transport
        decode).2 "url" = urlStr ∧
    (c.AnalyzeURL urlStr q uriParses newRequestOk transport decode).1.result =
        .error .validationTextURL ∧
    (c.AnalyzeURL urlStr q uriParses newRequestOk transport decode).1.events =
        [] := by
  have htext2 : Params.Get (Params.Set p "text" text) "text" = text :=
    Params.Get_Set_self p "text" text
  have hurl2 : Params.Get (Params.Set p "text" text) "url" =
      Params.Get p "url" :=
    Params.Get_Set_other p "text" "url" text (by decide)
  have hurl3 : Params.Get (Params.Set q "url" urlStr) "url" = urlStr :=
    Params.Get_Set_self q "url" urlStr
  have htext3 : Params.Get (Params.Set q "url" urlStr) "text" =
      Params.Get q "text" :=
    Params.Get_Set_other q "url" "text" urlStr (by decide)
  have hcond1 : Params.Get (Params.Set p "text" text) "text" ≠ "" ∧
      Params.Get (Params.Set p "text" text) "url" ≠ "" := by
    constructor
    · rw [htext2]; exact htext
    · rw [hurl2]; exact hurl
  have hcond2 : Params.Get (Params.Set q "url" urlStr) "text" ≠ "" ∧
      Params.Get (Params.Set q "url" urlStr) "url" ≠ "" := by
    constructor
    · rw [htext3]; exact hqtext
    · rw [hurl3]; exact hurlStr
  simp only [Client.AnalyzeText, Client.AnalyzeURL, Client.Analyze]
  rw [if_pos (Or.inr hcond1), if_pos (Or.inr hcond2)]
  exact ⟨trivial, htext2, rfl, rfl, trivial, hurl3, rfl, rfl⟩

/-- Witness for the amended C10: concrete wrapper calls with non-empty text
and url strings fail validation with no events. -/
theorem c10_witness :
    (Client.AnalyzeText (NewClient "KEY") "some text"
        [("url", ["http://example.com"])] (fun _ => true) true
        (.ok ⟨200, [], .ok "body"⟩) (fun _ => .ok ⟨true, "", ""⟩)).1.result =
      .error .validationTextURL ∧
    (Client.AnalyzeURL (NewClient "KEY") "http://example.com"
        [("text", ["some text"])] (fun _ => true) true
        (.ok ⟨200, [], .ok "body"⟩) (fun _ => .ok ⟨true, "", ""⟩)).1.result =
      .error .validationTextURL := by
  obtain ⟨_, _, h3, _, _, _, h7, _⟩ := c10_amended_analyze_wrappers
    (NewClient "KEY") "some text" "http://example.com"
    [("url", ["http://example.com"])] [("text", ["some text"])]
    (fun _ => true) true (.ok ⟨200, [], .ok "body"⟩)
    (fun _ => .ok ⟨true, "", ""⟩) (by decide) (by decide) (by decide)
    (by decide)
  exact ⟨h3, h7⟩
